import Mathlib

/-!
Shallow embedding of the browse-data components of the CIMAC-CIDC front end:
the facet `FilterProvider`, the paginated `FileTable` fetch controller, and the
legacy class-based `FileTable`.  Definitions are translated from the TypeScript
source; JavaScript runtime semantics (undefined property reads, truthiness,
strict equality) are made explicit with `Option` and `Bool`.
-/

namespace CIDC

/-- `ARRAY_PARAM_DELIM` from FilterProvider.tsx. -/
def ARRAY_PARAM_DELIM : String := "|"

/-- `IFacetInfo` from FilterProvider.tsx: a facet label/count pair. -/
structure IFacetInfo where
  label : String
  count : Int
  description : Option String := none
deriving DecidableEq, Repr

/-- One value of the dictionary `Dictionary<Dictionary<IFacetInfo[]> | IFacetInfo[]>`:
a category is either a nested dictionary of facet-name to sub-facet lists, or a
flat list of facet infos. -/
inductive CategoryEntry where
  | nested (d : List (String × List IFacetInfo))
  | flat (l : List IFacetInfo)
deriving DecidableEq, Repr

/-- String-keyed dictionary lookup (first binding wins, as in a JS object with
distinct keys). -/
def lookupDict {α : Type} (d : List (String × α)) (key : String) : Option α :=
  (d.find? (fun p => p.1 == key)).map (·.2)

/-- `IFacets` from FilterProvider.tsx. -/
structure IFacets where
  trial_ids : List IFacetInfo
  facets : List (String × CategoryEntry)
deriving DecidableEq, Repr

/-- `IFilters` from FilterProvider.tsx: the URL-persisted filter selections.
`none` models an absent (`undefined`) query parameter. -/
structure IFilters where
  trial_ids : Option (List String) := none
  facets : Option (List String) := none
deriving DecidableEq, Repr

/-- Character-level splitter: splitting a character list at every occurrence
of the delimiter, keeping empty segments (the result is never empty). -/
def splitChars (delim : Char) : List Char → List (List Char)
  | [] => [[]]
  | c :: cs =>
    match splitChars delim cs with
    | [] => [[c]]
    | h :: t => if c = delim then [] :: h :: t else (c :: h) :: t

/-- JS `facetString.split(ARRAY_PARAM_DELIM)`: split on the pipe character
(`ARRAY_PARAM_DELIM` is the one-character string `"|"`).  `"".split("|")` is
`[""]`, and empty segments are kept, as in JS. -/
def jsSplit (s : String) : List String :=
  (splitChars '|' s.data).map List.asString

/-- The JS value `newFacets.facets[cat][facet]`: look up the category, then the
facet inside it.  A flat (array-valued) category has no string-keyed facet
entries, so indexing it by a facet name yields `undefined` (`none`); the same
holds when the facet component of the selection string is missing. -/
def lookupFacetEntry (facets : List (String × CategoryEntry)) (cat : String)
    (facet : Option String) : Option (List IFacetInfo) :=
  match lookupDict facets cat with
  | none => none
  | some (CategoryEntry.nested d) => facet.bind (lookupDict d)
  | some (CategoryEntry.flat _) => none

/-- The predicate of `filters.facets?.filter(...)` in the FilterProvider
reconciliation effect (FilterProvider.tsx lines 69-85).  The source also reads
`newFacets.facets[cat][facet].count`, but that entry is a JS array, whose
`count` property is `undefined`, and `undefined > 0` is `false`; only the
sub-facet scan can keep the selection when the entry is present. -/
def keepFacet (newFacets : IFacets) (facetString : String) : Bool :=
  let parts := jsSplit facetString
  let cat := parts.headD ""
  let facet := parts[1]?
  let subfacet := parts[2]?
  match lookupFacetEntry newFacets.facets cat facet with
  | some entry =>
      (entry.filter (fun sf => some sf.label == subfacet && decide (sf.count > 0))).length > 0
  | none => true

/-- The `setFilters` payload of the reconciliation effect
(FilterProvider.tsx lines 67-86): `trial_ids` passed through unchanged,
`facets` filtered by `keepFacet` (and left `undefined` when it was). -/
def reconcileFilters (newFacets : IFacets) (filters : IFilters) : IFilters :=
  { trial_ids := filters.trial_ids
    facets := filters.facets.map (·.filter (keepFacet newFacets)) }

/-- A selection string's referenced category/facet entry is absent from the
new catalogue: the category is missing, the category is flat (so has no
string-keyed facet entries), or the facet key is missing within a nested
category. -/
def facetEntryAbsent (newFacets : IFacets) (facetString : String) : Prop :=
  let parts := jsSplit facetString
  lookupFacetEntry newFacets.facets (parts.headD "") parts[1]? = none

/-- A selection string's referenced entry exists and reports a positive count
via some sub-facet whose label equals the selection's subfacet component.
(The entry itself is a JS array with no `count` property, so it can never
report a positive count directly.) -/
def facetCountPositive (newFacets : IFacets) (facetString : String) : Prop :=
  let parts := jsSplit facetString
  ∃ entry, lookupFacetEntry newFacets.facets (parts.headD "") parts[1]? = some entry ∧
    ∃ sf ∈ entry, some sf.label = parts[2]? ∧ sf.count > 0

/-- The two keys of `filterConfig` (`keyof IFacets`). -/
inductive FilterKey where
  | trial_ids
  | facets
deriving DecidableEq, Repr

/-- `filters[k]`. -/
def getFilterKey (filters : IFilters) : FilterKey → Option (List String)
  | .trial_ids => filters.trial_ids
  | .facets => filters.facets

/-- `setFilters({ [k]: v })`: use-query-params merges the partial update into
the existing params, so only the named key changes. -/
def setFilterKey (filters : IFilters) (k : FilterKey) (v : Option (List String)) :
    IFilters :=
  match k with
  | .trial_ids => { filters with trial_ids := v }
  | .facets => { filters with facets := v }

/-- The JS value `facets[k][category]` inside `updateFilters`: for
`k = trial_ids` the facets value is an array, and string-indexing an array by
a label yields `undefined`; for `k = facets` it is a dictionary lookup (with a
missing category component looking up nothing). -/
def facetsKeyIndex (fs : IFacets) (k : FilterKey) (category : Option String) :
    Option CategoryEntry :=
  match k with
  | .trial_ids => none
  | .facets => category.bind (lookupDict fs.facets)

/-- JS truthiness of a possibly-undefined string: `undefined` and `""` are
falsy. -/
def jsTruthy : Option String → Bool
  | none => false
  | some s => s != ""

/-- `Array.isArray` on the (possibly undefined) value `facets[k][category]`. -/
def isArrayEntry : Option CategoryEntry → Bool
  | some (CategoryEntry.flat _) => true
  | _ => false

/-- lodash `uniq`: keep the first occurrence of each element, in order. -/
def jsUniq (l : List String) : List String :=
  l.foldl (fun acc x => if acc.contains x then acc else acc ++ [x]) []

/-- `toggleFilter` from FilterProvider.tsx lines 107-113. -/
def toggleFilter (filters : IFilters) (k : FilterKey) (v : String) : IFilters :=
  let currentValues := (getFilterKey filters k).getD []
  let updatedValues :=
    if currentValues.contains v then currentValues.filter (· != v)
    else currentValues ++ [v]
  setFilterKey filters k (some updatedValues)

/-- The argument of the inner `updateFilters` callback: a single facet string
or a path array. -/
inductive UpdateArg where
  | str (s : String)
  | arr (vs : List String)
deriving DecidableEq, Repr

/-- `updateFilters` from FilterProvider.tsx lines 114-142, as a function from
the provider's facets/filters state to the updated filters.  With no facets
loaded the callback returns early, leaving the filters unchanged.  In the
family branch the source reads `facets[k][category][facet].filter`, which
throws a TypeError when the category or facet entry is `undefined`; those
crashes are modelled as `none`. -/
def updateFilters (facets : Option IFacets) (filters : IFilters) (k : FilterKey)
    (v : UpdateArg) : Option IFilters :=
  match facets with
  | none => some filters
  | some fs =>
    match v with
    | .str s => some (toggleFilter filters k s)
    | .arr vs =>
      let category := vs[0]?
      let facet := vs[1]?
      let subfacet := vs[2]?
      if jsTruthy subfacet || isArrayEntry (facetsKeyIndex fs k category) then
        some (toggleFilter filters k (String.intercalate ARRAY_PARAM_DELIM vs))
      else
        match facetsKeyIndex fs k category with
        | some (CategoryEntry.nested d) =>
          match facet.bind (lookupDict d) with
          | some infos =>
            let keyFilters := (getFilterKey filters k).getD []
            let facetFamily :=
              String.intercalate ARRAY_PARAM_DELIM [category.getD "", facet.getD ""]
            let facetsInFamily := (infos.filter (fun f => decide (f.count > 0))).map
              (fun f => String.intercalate ARRAY_PARAM_DELIM [facetFamily, f.label])
            let hasAllFilters :=
              (keyFilters.filter (·.startsWith facetFamily)).length == facetsInFamily.length
            let newFilters :=
              if hasAllFilters then keyFilters.filter (fun f => !(f.startsWith facetFamily))
              else jsUniq (keyFilters ++ facetsInFamily)
            some (setFilterKey filters k (some newFilters))
          | none => none
        | _ => none

/-! ### FileTable (paginated fetch controller) -/

/-- `fileQueryDefaults.page_size`. -/
def page_size : Int := 15

/-- `CANCEL_MESSAGE` from FileTable. -/
def CANCEL_MESSAGE : String := "cancelling stale filter request"

/-- `meta` of an `IDataWithMeta` response. -/
structure Meta where
  total : Int
deriving DecidableEq, Repr

/-- A fetched page of files: the row payload (abstracted to row ids) plus its
meta. -/
structure FilesResult where
  data : List Int
  meta : Meta
deriving DecidableEq, Repr

/-- The controller state of the `FileTable` component: the URL query page, the
internally tracked previous page (initially `undefined`), the page displayed by
the table, and the committed data. -/
structure CtrlState where
  queryPage : Int
  prevPage : Option Int := none
  tablePage : Int := 0
  data : Option FilesResult := none
deriving DecidableEq, Repr

/-- One run of the fetch effect (FileTable lines 208-261), stopping at the
point where a request would be issued: returns the updated state and
`some page` when a fetch carrying that page number is issued, `none` when the
run only resets the query page.  In every branch `setPrevPage(queryPage)`
records the page this run saw; in the fetch branch the displayed data is
cleared to show the loading indicator. -/
def runEffect (st : CtrlState) : CtrlState × Option Int :=
  if some st.queryPage == st.prevPage && st.prevPage != some 0 then
    ({ st with queryPage := 0, prevPage := some st.queryPage }, none)
  else if st.queryPage < 0 then
    ({ st with queryPage := 0, prevPage := some st.queryPage }, none)
  else
    ({ st with data := none, prevPage := some st.queryPage }, some st.queryPage)

/-- The `.then` handler of `getFiles` (FileTable lines 238-253): `fetchPage` is
the `queryPage` captured when the request was issued. -/
def onFetchSuccess (fetchPage : Int) (files : FilesResult) (st : CtrlState) :
    CtrlState :=
  if fetchPage * page_size > files.meta.total then
    { st with queryPage := 0 }
  else
    { st with tablePage := fetchPage, data := some files }

/-- The `.catch` handler of `getFiles` (FileTable lines 254-258): the component
state is untouched; the error message is written to `console.error` (modelled
as an append-only log) unless it is the cancellation sentinel. -/
def onFetchError (message : String) (st : CtrlState) (log : List String) :
    CtrlState × List String :=
  if message != CANCEL_MESSAGE then (st, log ++ [message]) else (st, log)

/-! ### Cancellation machine for the in-flight request

The effect cancels the previous in-flight request through
`axiosCanceller.current.cancel(CANCEL_MESSAGE)` before issuing a new one
(FileTable lines 218-237).  Requests are numbered by issue order; a cancelled
request's promise rejects with the recorded cancellation message, and since
that message is the sentinel, the catch handler discards it without touching
state. -/

structure FetchMach where
  nextId : Nat := 0
  current : Option Nat := none
  cancelled : List (Nat × String) := []
  committed : Option (Nat × FilesResult) := none
deriving DecidableEq, Repr

/-- The fetch-issuing tail of the effect: cancel the current in-flight request
with the sentinel message, then install a fresh cancel token for the new
request. -/
def issueFetch (m : FetchMach) : FetchMach :=
  { nextId := m.nextId + 1
    current := some m.nextId
    cancelled :=
      match m.current with
      | some i => (i, CANCEL_MESSAGE) :: m.cancelled
      | none => m.cancelled
    committed := m.committed }

/-- Resolution of request `i` on the event loop: if its token was cancelled
the promise rejects with the recorded message, which equals the sentinel, and
the catch handler discards it; otherwise the then handler commits the
result. -/
def resolveFetch (m : FetchMach) (i : Nat) (files : FilesResult) : FetchMach :=
  match m.cancelled.find? (fun p => p.1 == i) with
  | some _ => m
  | none => { m with committed := some (i, files) }

inductive FetchEvent where
  | issue
  | resolve (i : Nat) (files : FilesResult)
deriving Repr

def fetchStep (m : FetchMach) : FetchEvent → FetchMach
  | .issue => issueFetch m
  | .resolve i files => resolveFetch m i files

/-- Run a sequence of issue/resolve events from the initial component state
(no request issued yet). -/
def runFetches (evs : List FetchEvent) : FetchMach :=
  evs.foldl fetchStep {}

/-- The trial table clears its loaded pages when the trial-id filters change:
`React.useEffect(() => { setSize(1); }, [filters.trial_ids, setSize])`
(TrialTable.tsx lines 350-353). -/
def trialTableSizeOnFilterChange (_size : Nat) : Nat := 1

/-! ### FileTable view: sort headers and row selection -/

/-- `IHeader` from PaginatedTable as used by FileTable: the optional `active`
and `direction` fields default to `undefined` (`false` / `none`). -/
structure IHeader where
  key : String
  label : String
  active : Bool := false
  direction : Option String := none
deriving DecidableEq, Repr

/-- The initial `headers` state of FileTable (lines 184-205). -/
def initialHeaders : List IHeader :=
  [ { key := "object_url", label := "File Name" },
    { key := "trial_id", label := "Protocol ID" },
    { key := "file_ext", label := "Format" },
    { key := "data_category", label := "Category" },
    { key := "file_size_bytes", label := "Size" },
    { key := "uploaded_timestamp", label := "Date/Time Uploaded",
      active := true, direction := some "desc" } ]

/-- The `onClickHeader` callback (FileTable lines 348-367). -/
def clickHeader (headers : List IHeader) (header : IHeader) : List IHeader :=
  headers.map fun h =>
    if h.key == header.key then
      if h.active then
        { h with direction := some (if h.direction == some "desc" then "asc" else "desc") }
      else
        { h with active := true, direction := some "desc" }
    else
      { h with active := false }

/-- Header state after a sequence of header clicks starting from the initial
headers. -/
def applyClicks (clicks : List IHeader) : List IHeader :=
  clicks.foldl clickHeader initialHeaders

/-- Number of headers marked active. -/
def activeCount (headers : List IHeader) : Nat :=
  (headers.filter (·.active)).length

/-- The `onClickRow` callback (FileTable lines 340-347): toggle the clicked
file's id in the selected-ids list. -/
def onClickRow (selectedFileIds : List Int) (fileId : Int) : List Int :=
  if selectedFileIds.contains fileId then
    selectedFileIds.filter (fun id => id != fileId)
  else
    selectedFileIds ++ [fileId]

/-! ### Legacy class-based FileTable -/

/-- The legacy `File` model, restricted to the fields the legacy table sorts
and renders. -/
structure File where
  _id : String
  file_name : String
  trial_name : String
  experimental_strategy : String
  number_of_samples : Int
  data_format : String
  file_size : Int
deriving DecidableEq, Repr

/-- A JS property value read off a `File` by column key. -/
inductive FieldValue where
  | str (s : String)
  | num (n : Int)
  | jsUndefined
deriving DecidableEq, Repr

/-- `file[sortBy]`: property access by the sort key; unknown keys read
`undefined`. -/
def File.getField (f : File) : String → FieldValue
  | "file_name" => .str f.file_name
  | "trial_name" => .str f.trial_name
  | "experimental_strategy" => .str f.experimental_strategy
  | "number_of_samples" => .num f.number_of_samples
  | "data_format" => .str f.data_format
  | "file_size" => .num f.file_size
  | _ => .jsUndefined

/-- lodash's ascending comparison on field values: strings lexicographically,
numbers numerically, `undefined` after every defined value.  A fixed key reads
the same constructor from every file, so the mixed cases are unreachable. -/
def fieldLeAsc : FieldValue → FieldValue → Bool
  | .str a, .str b => a ≤ b
  | .num a, .num b => a ≤ b
  | .jsUndefined, .jsUndefined => true
  | .jsUndefined, _ => false
  | _, .jsUndefined => true
  | .str _, .num _ => true
  | .num _, .str _ => false

/-- `_.orderBy(files, sortBy, sortDirection)`: a stable sort by the key's
value, with the comparison flipped for `"desc"` (equal keys keep their
original relative order in either direction). -/
def lodashOrderBy (files : List File) (sortBy : String) (sortDirection : String) :
    List File :=
  files.mergeSort fun a b =>
    if sortDirection == "desc" then fieldLeAsc (b.getField sortBy) (a.getField sortBy)
    else fieldLeAsc (a.getField sortBy) (b.getField sortBy)

/-- The rows the legacy table body renders (part_000 lines 163-204):
`orderBy(...).slice(page * rowsPerPage, page * rowsPerPage + rowsPerPage)`. -/
def renderedRows (files : List File) (sortBy sortDirection : String)
    (page rowsPerPage : Nat) : List File :=
  ((lodashOrderBy files sortBy sortDirection).drop (page * rowsPerPage)).take
    rowsPerPage

/-- The `count` prop passed to `TablePagination` (part_000 line 210): the full
unsliced list length. -/
def paginationCount (files : List File) : Nat := files.length

/-! ### Theorems -/

/-- The reconciliation predicate keeps a selection exactly when its entry is
absent from the new catalogue or some matching sub-facet has positive count. -/
theorem keepFacet_iff (nf : IFacets) (s : String) :
    keepFacet nf s = true ↔ facetCountPositive nf s ∨ facetEntryAbsent nf s := by
  unfold keepFacet
  dsimp only
  split
  next entry heq =>
    constructor
    · intro h
      replace h := of_decide_eq_true h
      obtain ⟨sf, hsf⟩ := List.length_pos_iff_exists_mem.mp h
      obtain ⟨hmem, hp⟩ := List.mem_filter.mp hsf
      rw [Bool.and_eq_true] at hp
      refine Or.inl ?_
      unfold facetCountPositive
      exact ⟨entry, heq, sf, hmem, beq_iff_eq.mp hp.1, of_decide_eq_true hp.2⟩
    · intro h
      apply decide_eq_true
      rcases h with hpos | habs
      · unfold facetCountPositive at hpos
        obtain ⟨e, he, sf, hmem, hlab, hcnt⟩ := hpos
        rw [heq] at he
        injection he with he'
        subst he'
        refine List.length_pos_iff_exists_mem.mpr ⟨sf, List.mem_filter.mpr ⟨hmem, ?_⟩⟩
        rw [Bool.and_eq_true]
        exact ⟨beq_iff_eq.mpr hlab, decide_eq_true hcnt⟩
      · unfold facetEntryAbsent at habs
        dsimp only at habs
        rw [heq] at habs
        exact absurd habs (by simp)
  next heq =>
    constructor
    · intro _
      right
      unfold facetEntryAbsent
      exact heq
    · intro _
      rfl

/-- Claim C1: after a facet-catalogue refresh, the reconciliation effect
leaves `trial_ids` unchanged, and a previously selected facet string is
retained iff its referenced catalogue entry reports a positive count for the
selection's subfacet, or the referenced category/facet entry is absent from
the new catalogue (unknown categories are not pruned). -/
theorem facet_reconciliation_retains_iff (newFacets : IFacets) (filters : IFilters)
    (s : String) (hs : s ∈ filters.facets.getD []) :
    (reconcileFilters newFacets filters).trial_ids = filters.trial_ids ∧
    (s ∈ ((reconcileFilters newFacets filters).facets.getD []) ↔
      facetCountPositive newFacets s ∨ facetEntryAbsent newFacets s) := by
  refine ⟨rfl, ?_⟩
  cases hf : filters.facets with
  | none => rw [hf] at hs; simp at hs
  | some l =>
    rw [hf] at hs
    simp only [Option.getD_some] at hs
    simp only [reconcileFilters, hf, Option.map_some, Option.getD_some]
    rw [← keepFacet_iff]
    simp [List.mem_filter, hs]

/-- Concrete run of claim C1: a selection with a positive sub-facet count is
retained, and the positivity condition holds for it. -/
theorem facet_reconciliation_retains_iff_witness :
    "Assay|WES|FASTQ" ∈
      ((reconcileFilters
        { trial_ids := [],
          facets := [("Assay", CategoryEntry.nested
            [("WES", [{ label := "FASTQ", count := 2 }])])] }
        { trial_ids := some ["T1"], facets := some ["Assay|WES|FASTQ"] }).facets.getD []) ↔
      facetCountPositive
        { trial_ids := [],
          facets := [("Assay", CategoryEntry.nested
            [("WES", [{ label := "FASTQ", count := 2 }])])] } "Assay|WES|FASTQ" ∨
      facetEntryAbsent
        { trial_ids := [],
          facets := [("Assay", CategoryEntry.nested
            [("WES", [{ label := "FASTQ", count := 2 }])])] } "Assay|WES|FASTQ" :=
  (facet_reconciliation_retains_iff _ _ _ (by decide)).2

/-- Claim C2: on a successful paginated fetch, if the requested page times the
fixed page size (15) exceeds the reported total, the controller resets the
query page to 0 and commits neither the data nor the table page; otherwise it
commits the fetched page as the displayed table page and the fetched data. -/
theorem out_of_range_page_resets (fetchPage : Int) (files : FilesResult)
    (st : CtrlState) :
    (fetchPage * page_size > files.meta.total →
      (onFetchSuccess fetchPage files st).queryPage = 0 ∧
      (onFetchSuccess fetchPage files st).data = st.data ∧
      (onFetchSuccess fetchPage files st).tablePage = st.tablePage) ∧
    (fetchPage * page_size ≤ files.meta.total →
      (onFetchSuccess fetchPage files st).tablePage = fetchPage ∧
      (onFetchSuccess fetchPage files st).data = some files ∧
      (onFetchSuccess fetchPage files st).queryPage = st.queryPage) := by
  unfold onFetchSuccess
  constructor
  · intro h
    rw [if_pos h]
    exact ⟨rfl, rfl, rfl⟩
  · intro h
    rw [if_neg (not_lt.mpr h)]
    exact ⟨rfl, rfl, rfl⟩

/-- Concrete run of claim C2: page 2, page size 15, total 10 — the controller
detects 2 * 15 = 30 > 10 and resets the query page to 0 without committing. -/
theorem out_of_range_page_resets_witness :
    (onFetchSuccess 2 { data := [], meta := { total := 10 } }
      { queryPage := 2, prevPage := some 2, tablePage := 1,
        data := none }).queryPage = 0 ∧
    (onFetchSuccess 2 { data := [], meta := { total := 10 } }
      { queryPage := 2, prevPage := some 2, tablePage := 1,
        data := none }).data = none ∧
    (onFetchSuccess 2 { data := [], meta := { total := 10 } }
      { queryPage := 2, prevPage := some 2, tablePage := 1,
        data := none }).tablePage = 1 :=
  (out_of_range_page_resets 2 { data := [], meta := { total := 10 } }
    { queryPage := 2, prevPage := some 2, tablePage := 1, data := none }).1
    (by decide)

/-- Claim C4: when the fetch effect runs with the query page equal to the
recorded previous page and that page nonzero (the stale echo of a filter or
sort change), it resets the query page to 0 and issues no fetch; the following
effect run issues a fetch for page 0, and a successful response (with a
nonnegative total) commits table page 0 with the fetched data.  The trial
table analogously resets its loaded page count to one page when trial-id
filters change. -/
theorem stale_echo_resets_page (st : CtrlState) (files : FilesResult)
    (hecho : st.prevPage = some st.queryPage) (hnz : st.queryPage ≠ 0) :
    (runEffect st).2 = none ∧
    (runEffect st).1.queryPage = 0 ∧
    (runEffect (runEffect st).1).2 = some 0 ∧
    (0 ≤ files.meta.total →
      (onFetchSuccess 0 files (runEffect (runEffect st).1).1).tablePage = 0 ∧
      (onFetchSuccess 0 files (runEffect (runEffect st).1).1).data = some files) ∧
    (∀ n : Nat, trialTableSizeOnFilterChange n = 1) := by
  have hcond : (some st.queryPage == st.prevPage && st.prevPage != some 0) = true := by
    rw [hecho]
    simp [hnz]
  have h1 : runEffect st =
      ({ st with queryPage := 0, prevPage := some st.queryPage }, none) := by
    unfold runEffect
    rw [if_pos hcond]
  have h2 : runEffect { st with queryPage := 0, prevPage := some st.queryPage } =
      ({ st with queryPage := 0, prevPage := some 0, data := none }, some 0) := by
    unfold runEffect
    have hc2 : (some (0 : Int) == some st.queryPage && some st.queryPage != some 0) = false := by
      simp only [Bool.and_eq_false_iff]
      by_cases h : st.queryPage = 0
      · exact absurd h hnz
      · left
        simp [Ne.symm h]
    simp only [hc2]
    norm_num
  refine ⟨by rw [h1], by rw [h1], by rw [h1, h2], ?_, fun _ => rfl⟩
  intro htot
  rw [h1, h2]
  unfold onFetchSuccess
  have : ¬((0 : Int) * page_size > files.meta.total) := by
    simpa [page_size] using htot
  rw [if_neg this]
  exact ⟨rfl, rfl⟩

/-- Concrete run of claim C4: query page 2 echoed by previous page 2 resets to
page 0 without fetching, then the next run fetches page 0 and commits it. -/
theorem stale_echo_resets_page_witness :
    (runEffect { queryPage := 2, prevPage := some 2 }).2 = none ∧
    (runEffect { queryPage := 2, prevPage := some 2 }).1.queryPage = 0 ∧
    (runEffect (runEffect { queryPage := 2, prevPage := some 2 }).1).2 = some 0 ∧
    (0 ≤ ({ data := [7], meta := { total := 1 } } : FilesResult).meta.total →
      (onFetchSuccess 0 { data := [7], meta := { total := 1 } }
        (runEffect (runEffect { queryPage := 2, prevPage := some 2 }).1).1).tablePage = 0 ∧
      (onFetchSuccess 0 { data := [7], meta := { total := 1 } }
        (runEffect (runEffect { queryPage := 2, prevPage := some 2 }).1).1).data =
        some { data := [7], meta := { total := 1 } }) ∧
    (∀ n : Nat, trialTableSizeOnFilterChange n = 1) :=
  stale_echo_resets_page { queryPage := 2, prevPage := some 2 }
    { data := [7], meta := { total := 1 } } (by decide) (by decide)

/-- Claim C6: a negative query page is clamped — the effect run resets the
query page to 0 and issues no fetch — and every fetch that is issued carries a
page number that is at least 0. -/
theorem negative_page_clamp (st : CtrlState) (p : Int) :
    (st.queryPage < 0 →
      (runEffect st).2 = none ∧ (runEffect st).1.queryPage = 0) ∧
    ((runEffect st).2 = some p → 0 ≤ p) := by
  unfold runEffect
  constructor
  · intro hneg
    by_cases hc : (some st.queryPage == st.prevPage && st.prevPage != some 0) = true
    · rw [if_pos hc]
      exact ⟨rfl, rfl⟩
    · rw [if_neg hc, if_pos hneg]
      exact ⟨rfl, rfl⟩
  · intro hfetch
    by_cases hc : (some st.queryPage == st.prevPage && st.prevPage != some 0) = true
    · rw [if_pos hc] at hfetch
      exact absurd hfetch (by simp)
    · rw [if_neg hc] at hfetch
      by_cases hneg : st.queryPage < 0
      · rw [if_pos hneg] at hfetch
        exact absurd hfetch (by simp)
      · rw [if_neg hneg] at hfetch
        simp only [Option.some.injEq] at hfetch
        omega

/-- Concrete run of claim C6: query page -3 issues no fetch and is clamped to
0. -/
theorem negative_page_clamp_witness :
    (runEffect { queryPage := -3, prevPage := some 1 }).2 = none ∧
    (runEffect { queryPage := -3, prevPage := some 1 }).1.queryPage = 0 :=
  (negative_page_clamp { queryPage := -3, prevPage := some 1 } 0).1 (by decide)

/-- Claim C7: a rejected fetch never changes the controller state; a rejection
whose message is the cancellation sentinel is discarded without logging, and
any other rejection has its message appended to the diagnostic log. -/
theorem fetch_error_taxonomy (message : String) (st : CtrlState)
    (log : List String) :
    (onFetchError message st log).1 = st ∧
    (message = CANCEL_MESSAGE → (onFetchError message st log).2 = log) ∧
    (message ≠ CANCEL_MESSAGE →
      (onFetchError message st log).2 = log ++ [message]) := by
  unfold onFetchError
  refine ⟨?_, ?_, ?_⟩
  · by_cases h : (message != CANCEL_MESSAGE) = true
    · rw [if_pos h]
    · rw [if_neg h]
  · intro h
    have : (message != CANCEL_MESSAGE) = false := by simp [h]
    rw [this]
    simp
  · intro h
    have : (message != CANCEL_MESSAGE) = true := by simp [h]
    rw [this]
    simp

/-- Concrete run of claim C7: the sentinel message is discarded silently and a
genuine error message is logged, with the state untouched in both cases. -/
theorem fetch_error_taxonomy_witness :
    (onFetchError "network down" { queryPage := 1 } []).1 = { queryPage := 1 } ∧
    (onFetchError "network down" { queryPage := 1 } []).2 = [] ++ ["network down"] ∧
    (onFetchError CANCEL_MESSAGE { queryPage := 1 } []).2 = [] :=
  ⟨(fetch_error_taxonomy "network down" { queryPage := 1 } []).1,
   (fetch_error_taxonomy "network down" { queryPage := 1 } []).2.2 (by decide),
   (fetch_error_taxonomy CANCEL_MESSAGE { queryPage := 1 } []).2.1 rfl⟩

/-- Clicking a row preserves the no-duplicates invariant of the selected-ids
list. -/
theorem nodup_onClickRow (ids : List Int) (fid : Int) (h : ids.Nodup) :
    (onClickRow ids fid).Nodup := by
  unfold onClickRow
  by_cases hc : ids.contains fid = true
  · rw [if_pos hc]
    exact h.filter _
  · rw [if_neg hc]
    have hnm : fid ∉ ids := by simpa using hc
    rw [List.nodup_append]
    exact ⟨h, List.nodup_singleton _, by simpa [List.disjoint_singleton] using hnm⟩

/-- Claim C9: clicking a row removes the file's id from the selection when
present and appends it when absent; clicking the same row twice restores the
selection set (as a set of members), and a selection built from toggles alone
never contains duplicate ids. -/
theorem row_click_toggle (ids : List Int) (fid x : Int) (clicks : List Int) :
    (fid ∈ ids → fid ∉ onClickRow ids fid ∧
      (x ≠ fid → (x ∈ onClickRow ids fid ↔ x ∈ ids))) ∧
    (fid ∉ ids → onClickRow ids fid = ids ++ [fid]) ∧
    (x ∈ onClickRow (onClickRow ids fid) fid ↔ x ∈ ids) ∧
    (clicks.foldl onClickRow []).Nodup := by
  refine ⟨?_, ?_, ?_, ?_⟩
  · intro hmem
    have hc : ids.contains fid = true := by simpa using hmem
    unfold onClickRow
    rw [if_pos hc]
    constructor
    · intro hbad
      have := (List.mem_filter.mp hbad).2
      simp at this
    · intro hne
      simp [List.mem_filter, hne]
  · intro hnm
    unfold onClickRow
    rw [if_neg (by simpa using hnm)]
  · by_cases hmem : fid ∈ ids
    · have hc : ids.contains fid = true := by simpa using hmem
      unfold onClickRow
      rw [if_pos hc]
      have hc2 : (ids.filter (fun id => id != fid)).contains fid = false := by
        simp [List.mem_filter]
      rw [if_neg (by simp [hc2])]
      by_cases hx : x = fid
      · subst hx
        simp [hmem]
      · simp [List.mem_filter, hx]
    · have h1 : onClickRow ids fid = ids ++ [fid] := by
        unfold onClickRow
        rw [if_neg (by simpa using hmem)]
      rw [h1]
      unfold onClickRow
      rw [if_pos (by simp)]
      by_cases hx : x = fid
      · subst hx
        simp [List.mem_filter, hmem]
      · simp [List.mem_filter, hx, hmem]
  · have : ∀ l : List Int, l.Nodup → (clicks.foldl onClickRow l).Nodup := by
      induction clicks with
      | nil => intro l hl; exact hl
      | cons c cs ih =>
        intro l hl
        exact ih _ (nodup_onClickRow l c hl)
    exact this [] (List.nodup_nil)

/-- Concrete run of claim C9: toggling id 2 out of [1, 2], toggling id 3 into
[1, 2], and double-toggling id 2. -/
theorem row_click_toggle_witness :
    (2 : Int) ∉ onClickRow [1, 2] 2 ∧
    onClickRow [1, 2] 3 = [1, 2] ++ [3] ∧
    ((1 : Int) ∈ onClickRow (onClickRow [1, 2] 2) 2 ↔ (1 : Int) ∈ ([1, 2] : List Int)) :=
  ⟨((row_click_toggle [1, 2] 2 1 []).1 (by decide)).1,
   (row_click_toggle [1, 2] 3 1 []).2.1 (by decide),
   (row_click_toggle [1, 2] 2 1 []).2.2.1⟩

/-- Clicking a header does not change the header keys or their order. -/
theorem clickHeader_keys (hs : List IHeader) (c : IHeader) :
    (clickHeader hs c).map IHeader.key = hs.map IHeader.key := by
  unfold clickHeader
  rw [List.map_map]
  apply List.map_congr_left
  intro h _
  dsimp only [Function.comp]
  split
  · split <;> rfl
  · rfl

/-- After a click, the active headers are exactly those whose key equals the
clicked key. -/
theorem activeCount_clickHeader (hs : List IHeader) (c : IHeader) :
    activeCount (clickHeader hs c) = hs.countP (fun h => h.key == c.key) := by
  unfold activeCount clickHeader
  rw [List.filter_map, List.length_map, ← List.countP_eq_length_filter]
  apply List.countP_congr
  intro h _
  dsimp only [Function.comp]
  by_cases hk : (h.key == c.key) = true
  · by_cases ha : h.active = true <;> simp [hk, ha]
  · have hk' : (h.key == c.key) = false := by
      exact Bool.not_eq_true _ ▸ (by simpa using hk)
    simp [hk']

/-- With pairwise-distinct keys, exactly one header carries a given present
key. -/
theorem countP_key_eq_one (hs : List IHeader) (c : IHeader)
    (hnd : (hs.map IHeader.key).Nodup) (hmem : c.key ∈ hs.map IHeader.key) :
    hs.countP (fun h => h.key == c.key) = 1 := by
  induction hs with
  | nil => simp at hmem
  | cons hd tl ih =>
    simp only [List.map_cons, List.nodup_cons] at hnd
    rw [List.countP_cons]
    by_cases hk : hd.key = c.key
    · have hz : tl.countP (fun h => h.key == c.key) = 0 := by
        rw [List.countP_eq_zero]
        intro a ha
        simp only [beq_iff_eq]
        intro he
        exact hnd.1 (hk ▸ he ▸ List.mem_map_of_mem IHeader.key ha)
      simp [hz, hk]
    · have hmem' : c.key ∈ tl.map IHeader.key := by
        rcases List.mem_cons.mp hmem with he | ht
        · exact absurd he.symm hk
        · exact ht
      simp only [beq_iff_eq, hk, if_false]
      simpa using ih hnd.2 hmem'

/-- Any sequence of clicks leaves the header keys unchanged. -/
theorem applyClicks_keys (clicks : List IHeader) :
    (applyClicks clicks).map IHeader.key = initialHeaders.map IHeader.key := by
  unfold applyClicks
  suffices h : ∀ acc : List IHeader,
      (clicks.foldl clickHeader acc).map IHeader.key = acc.map IHeader.key by
    exact h initialHeaders
  induction clicks with
  | nil => intro acc; rfl
  | cons c cs ih =>
    intro acc
    rw [List.foldl_cons, ih (clickHeader acc c), clickHeader_keys]

/-- Pointwise effect of a header click: the header at each position keeps its
slot; it is active afterwards iff its key is the clicked key, an active
clicked header has its direction flipped, and an inactive clicked header gets
direction descending. -/
theorem clickHeader_getElem (hs : List IHeader) (c : IHeader) (i : Nat)
    (h : IHeader) (hq : hs[i]? = some h) :
    ∃ h', (clickHeader hs c)[i]? = some h' ∧
      h'.active = (h.key == c.key) ∧
      (h.key = c.key → h.active = true →
        h'.direction = some (if h.direction = some "desc" then "asc" else "desc")) ∧
      (h.key = c.key → h.active = false → h'.direction = some "desc") := by
  unfold clickHeader
  rw [List.getElem?_map, hq, Option.map_some']
  refine ⟨_, rfl, ?_, ?_, ?_⟩
  · by_cases hkb : (h.key == c.key) = true
    · by_cases ha : h.active = true <;> simp [hkb, ha]
    · have hkb' : (h.key == c.key) = false := by simpa using hkb
      simp [hkb']
  · intro hk ha
    have hkb : (h.key == c.key) = true := by simpa using hk
    simp only [hkb, if_true, ha]
    by_cases hd : h.direction = some "desc"
    · simp [hd]
    · have hdb : (h.direction == some "desc") = false := by simpa using hd
      simp [hdb, hd]
  · intro hk ha
    have hkb : (h.key == c.key) = true := by simpa using hk
    simp [hkb, ha]

/-- Claim C8: the initial header list has exactly one active header, namely
uploaded_timestamp with direction descending; after every sequence of clicks
on present headers exactly one header is active; clicking the active header
flips its direction between ascending and descending, and clicking an
inactive header makes it active with direction descending while every other
header is deactivated. -/
theorem single_active_sort_column (clicks : List IHeader) (hs : List IHeader)
    (c h : IHeader) (i : Nat) :
    (activeCount initialHeaders = 1 ∧
      initialHeaders.filter (·.active) =
        [{ key := "uploaded_timestamp", label := "Date/Time Uploaded",
           active := true, direction := some "desc" }]) ∧
    ((∀ x ∈ clicks, x.key ∈ initialHeaders.map IHeader.key) →
      activeCount (applyClicks clicks) = 1) ∧
    (hs[i]? = some h → h.key = c.key → h.active = true →
      ∃ h', (clickHeader hs c)[i]? = some h' ∧ h'.active = true ∧
        h'.direction = some (if h.direction = some "desc" then "asc" else "desc")) ∧
    (hs[i]? = some h → h.key = c.key → h.active = false →
      ∃ h', (clickHeader hs c)[i]? = some h' ∧ h'.active = true ∧
        h'.direction = some "desc") ∧
    (hs[i]? = some h → h.key ≠ c.key →
      ∃ h', (clickHeader hs c)[i]? = some h' ∧ h'.active = false) := by
  refine ⟨⟨by decide, by decide⟩, ?_, ?_, ?_, ?_⟩
  · intro hv
    rcases List.eq_nil_or_concat clicks with rfl | ⟨l, a, rfl⟩
    · decide
    · unfold applyClicks
      rw [List.concat_eq_append, List.foldl_concat]
      rw [activeCount_clickHeader]
      have hkeys := applyClicks_keys l
      unfold applyClicks at hkeys
      apply countP_key_eq_one
      · rw [hkeys]
        decide
      · rw [hkeys]
        exact hv a (by simp)
  · intro hq hk ha
    obtain ⟨h', he, hact, hflip, _⟩ := clickHeader_getElem hs c i h hq
    exact ⟨h', he, by rw [hact]; simpa using hk, hflip hk ha⟩
  · intro hq hk ha
    obtain ⟨h', he, hact, _, hdesc⟩ := clickHeader_getElem hs c i h hq
    exact ⟨h', he, by rw [hact]; simpa using hk, hdesc hk ha⟩
  · intro hq hk
    obtain ⟨h', he, hact, _, _⟩ := clickHeader_getElem hs c i h hq
    refine ⟨h', he, ?_⟩
    rw [hact]
    simpa using hk

/-- Concrete run of claim C8: one click on the Format header yields exactly
one active header, and clicking the active uploaded_timestamp header flips it
to ascending. -/
theorem single_active_sort_column_witness :
    activeCount (applyClicks [{ key := "file_ext", label := "Format" }]) = 1 ∧
    (∃ h', (clickHeader initialHeaders
        { key := "uploaded_timestamp", label := "Date/Time Uploaded" })[5]? = some h' ∧
      h'.active = true ∧ h'.direction = some "asc") :=
  ⟨(single_active_sort_column [{ key := "file_ext", label := "Format" }] []
      { key := "", label := "" } { key := "", label := "" } 0).2.1 (by decide),
   by
    simpa using (single_active_sort_column [] initialHeaders
      { key := "uploaded_timestamp", label := "Date/Time Uploaded" }
      { key := "uploaded_timestamp", label := "Date/Time Uploaded",
        active := true, direction := some "desc" } 5).2.2.1
      (by decide) rfl rfl⟩

/-- Invariant of the cancellation machine: the current in-flight request was
issued, and every issued request other than the current one has been
cancelled with the sentinel message. -/
def FetchInv (m : FetchMach) : Prop :=
  (∀ i, m.current = some i → i < m.nextId) ∧
  (∀ j, j < m.nextId → m.current ≠ some j → (j, CANCEL_MESSAGE) ∈ m.cancelled)

/-- The initial machine satisfies the invariant. -/
theorem fetchInv_init : FetchInv {} := by
  constructor
  · intro i h
    simp [FetchMach.current] at h
  · intro j hj
    simp [FetchMach.nextId] at hj

/-- Each issue or resolve event preserves the invariant. -/
theorem fetchInv_step (m : FetchMach) (e : FetchEvent) (h : FetchInv m) :
    FetchInv (fetchStep m e) := by
  obtain ⟨h1, h2⟩ := h
  cases e with
  | issue =>
    constructor
    · intro i hi
      simp only [fetchStep, issueFetch, Option.some.injEq] at hi ⊢
      omega
    · intro j hj hne
      simp only [fetchStep, issueFetch, Option.some.injEq, ne_eq] at hj hne ⊢
      have hjlt : j < m.nextId := by omega
      cases hcur : m.current with
      | none =>
        simpa using h2 j hjlt (by simp [hcur])
      | some i =>
        by_cases hji : j = i
        · subst hji
          exact List.mem_cons_self _ _
        · refine List.mem_cons_of_mem _ (h2 j hjlt ?_)
          rw [hcur]
          simpa using fun hh => hji hh.symm
  | resolve i files =>
    have hinv : FetchInv (resolveFetch m i files) := by
      unfold resolveFetch
      cases hf : m.cancelled.find? (fun p => p.1 == i) with
      | some p => exact ⟨h1, h2⟩
      | none => exact ⟨h1, h2⟩
    exact hinv

/-- Every reachable machine state satisfies the invariant. -/
theorem fetchInv_run (evs : List FetchEvent) : FetchInv (runFetches evs) := by
  unfold runFetches
  suffices h : ∀ m : FetchMach, FetchInv m → FetchInv (evs.foldl fetchStep m) by
    exact h {} fetchInv_init
  induction evs with
  | nil => intro m hm; exact hm
  | cons e es ih =>
    intro m hm
    exact ih _ (fetchInv_step m e hm)

/-- Claim C3: before a new paginated fetch is issued, the in-flight request is
cancelled with the fixed sentinel message; and resolving any superseded
request (issued but no longer current) leaves the machine unchanged — its
result is never committed, even though it resolves later. -/
theorem last_request_wins (evs : List FetchEvent) (i j : Nat) (files : FilesResult) :
    ((runFetches evs).current = some j →
      (j, CANCEL_MESSAGE) ∈ (issueFetch (runFetches evs)).cancelled) ∧
    (i < (runFetches evs).nextId → (runFetches evs).current ≠ some i →
      fetchStep (runFetches evs) (FetchEvent.resolve i files) = runFetches evs) := by
  constructor
  · intro hcur
    unfold issueFetch
    rw [hcur]
    exact List.mem_cons_self _ _
  · intro hlt hne
    have hmem := (fetchInv_run evs).2 i hlt hne
    show resolveFetch (runFetches evs) i files = runFetches evs
    unfold resolveFetch
    cases hf : (runFetches evs).cancelled.find? (fun p => p.1 == i) with
    | some p => rfl
    | none =>
      rw [List.find?_eq_none] at hf
      exact absurd (by simp : (((i, CANCEL_MESSAGE) : Nat × String).1 == i) = true) (hf _ hmem)

/-- Concrete run of claim C3: after two issues, a late resolution of the
first (superseded) request changes nothing. -/
theorem last_request_wins_witness :
    fetchStep (runFetches [FetchEvent.issue, FetchEvent.issue])
        (FetchEvent.resolve 0 { data := [1], meta := { total := 1 } }) =
      runFetches [FetchEvent.issue, FetchEvent.issue] :=
  (last_request_wins [FetchEvent.issue, FetchEvent.issue] 0 0
    { data := [1], meta := { total := 1 } }).2 (by decide) (by decide)

/-- Claim C10: the legacy class-based table renders exactly the slice of the
sorted file list from index page * rowsPerPage (inclusive) to
page * rowsPerPage + rowsPerPage (exclusive) — at most rowsPerPage rows, and
none when the start index is at or past the end — while the pagination count
reported is the full unsliced list length, and sorting preserves length. -/
theorem legacy_table_pagination (files : List CIDC.File)
    (sortBy sortDirection : String) (page rowsPerPage i : Nat) :
    (lodashOrderBy files sortBy sortDirection).length = files.length ∧
    (renderedRows files sortBy sortDirection page rowsPerPage).length =
      min rowsPerPage (files.length - page * rowsPerPage) ∧
    ((renderedRows files sortBy sortDirection page rowsPerPage)[i]? =
      if i < rowsPerPage then
        (lodashOrderBy files sortBy sortDirection)[page * rowsPerPage + i]?
      else none) ∧
    (files.length ≤ page * rowsPerPage →
      renderedRows files sortBy sortDirection page rowsPerPage = []) ∧
    paginationCount files = files.length := by
  have hlen : (lodashOrderBy files sortBy sortDirection).length = files.length := by
    unfold lodashOrderBy
    exact List.length_mergeSort files
  refine ⟨hlen, ?_, ?_, ?_, rfl⟩
  · unfold renderedRows
    rw [List.length_take, List.length_drop, hlen]
  · unfold renderedRows
    rw [List.getElem?_take]
    by_cases hi : i < rowsPerPage
    · rw [if_pos hi, List.getElem?_drop, if_pos hi]
    · rw [if_neg hi, if_neg hi]
  · intro hle
    unfold renderedRows
    have : (lodashOrderBy files sortBy sortDirection).drop (page * rowsPerPage) = [] := by
      apply List.drop_eq_nil_of_le
      rw [hlen]
      exact hle
    rw [this, List.take_nil]

/-- Concrete run of claim C10: page 2 of size 2 over three files renders no
rows. -/
theorem legacy_table_pagination_witness :
    (renderedRows
      [{ _id := "a", file_name := "b.txt", trial_name := "T1",
         experimental_strategy := "WES", number_of_samples := 3,
         data_format := "FASTQ", file_size := 10 },
       { _id := "b", file_name := "a.txt", trial_name := "T2",
         experimental_strategy := "RNA", number_of_samples := 1,
         data_format := "BAM", file_size := 20 },
       { _id := "c", file_name := "c.txt", trial_name := "T0",
         experimental_strategy := "WES", number_of_samples := 2,
         data_format := "VCF", file_size := 5 }]
      "file_name" "asc" 2 2 = []) :=
  (legacy_table_pagination _ "file_name" "asc" 2 2 0).2.2.2.1 (by decide)

/-- A facet catalogue holding a single nested category with one zero-count
leaf facet. -/
def zeroCountCatalogue : IFacets :=
  { trial_ids := []
    facets := [("Assay", CategoryEntry.nested
      [("WES", [{ label := "BAM", count := 0 }])])] }

/-- Counterexample to claim C5: with a catalogue whose only leaf facet
Assay/WES/BAM has count 0 and an empty selection, `updateFilters` on the leaf
path adds the zero-count facet string — the persisted filter selection does
change. -/
theorem zero_count_leaf_toggle_adds :
    updateFilters (some zeroCountCatalogue) {} FilterKey.facets
        (UpdateArg.arr ["Assay", "WES", "BAM"]) =
      some { trial_ids := none, facets := some ["Assay|WES|BAM"] } ∧
    updateFilters (some zeroCountCatalogue) {} FilterKey.facets
        (UpdateArg.arr ["Assay", "WES", "BAM"]) ≠ some ({} : IFilters) := by
  constructor
  · decide
  · decide

/-- Claim C5 as amended: `updateFilters` toggles a three-part (leaf) facet
path unconditionally, so a zero-count leaf facet string is added to (or
removed from) the persisted selection; the zero-count no-op only holds after
the facet-reconciliation effect prunes selections the catalogue cannot
justify: reconciling the toggled filters against the same catalogue yields
the same facet selection as reconciling the original filters, and trial_ids
are never touched. -/
theorem zero_count_leaf_toggle_reconciled (fs : IFacets) (filters : IFilters)
    (vs : List String) (res : IFilters)
    (htruthy : jsTruthy vs[2]? = true)
    (hkeep : keepFacet fs (String.intercalate ARRAY_PARAM_DELIM vs) = false)
    (hres : updateFilters (some fs) filters FilterKey.facets
      (UpdateArg.arr vs) = some res) :
    res.trial_ids = filters.trial_ids ∧
    (reconcileFilters fs res).facets.getD [] =
      (reconcileFilters fs filters).facets.getD [] := by
  set s := String.intercalate ARRAY_PARAM_DELIM vs with hs
  have hres' : res = toggleFilter filters FilterKey.facets s := by
    unfold updateFilters at hres
    dsimp only at hres
    rw [htruthy] at hres
    simp only [Bool.true_or, if_true, Option.some.injEq] at hres
    exact hres.symm
  subst hres'
  have hcur : ∀ l : List String,
      (l.filter (keepFacet fs)) = ((if l.contains s then l.filter (· != s)
        else l ++ [s]).filter (keepFacet fs)) := by
    intro l
    by_cases hc : l.contains s = true
    · rw [if_pos hc, List.filter_filter]
      symm
      apply List.filter_congr
      intro x hx
      by_cases hk : keepFacet fs x = true
      · have hxs : (x != s) = true := by
          simp only [bne_iff_ne, ne_eq]
          intro he
          rw [he] at hk
          rw [hk] at hkeep
          exact Bool.noConfusion hkeep
        simp [hk, hxs]
      · simp [hk]
    · rw [if_neg hc, List.filter_append]
      have : [s].filter (keepFacet fs) = [] := by
        simp [List.filter, hkeep]
      rw [this, List.append_nil]
  constructor
  · rfl
  · unfold toggleFilter reconcileFilters setFilterKey
    dsimp only
    cases hf : filters.facets with
    | none => simp [getFilterKey, hf, List.filter, hkeep]
    | some l =>
      simp only [getFilterKey, hf, Option.getD_some, Option.map_some', Option.getD_some]
      exact (hcur l).symm

/-- Concrete run of amended claim C5: toggling the zero-count leaf
Assay/WES/BAM into an empty selection and reconciling restores the reconciled
original (empty) selection. -/
theorem zero_count_leaf_toggle_reconciled_witness :
    ({ trial_ids := none, facets := some ["Assay|WES|BAM"] } : IFilters).trial_ids =
      ({} : IFilters).trial_ids ∧
    (reconcileFilters zeroCountCatalogue
      { trial_ids := none, facets := some ["Assay|WES|BAM"] }).facets.getD [] =
      (reconcileFilters zeroCountCatalogue {}).facets.getD [] :=
  zero_count_leaf_toggle_reconciled zeroCountCatalogue {} ["Assay", "WES", "BAM"]
    { trial_ids := none, facets := some ["Assay|WES|BAM"] }
    (by decide) (by decide) (by decide)

end CIDC
